import Mathlib

/-!
# Touch-controller drivers (FT6236 capacitive, NS2009 resistive)

A shallow embedding of `Code/touch_draw_v3/FT6236.cpp` and
`Code/touch_draw_v3/NS2009.cpp`.  The Arduino `Wire` object is not part of the
repository; it is modelled by the record `TwoWire`, whose `device` field is the
behaviour of the slaves on the bus and is a parameter of every statement.

C `int` values are `Int`; bytes travelling on the bus are `Nat` (statements
assume them below 256).  `unsigned int` values are `Nat` reduced modulo `2^32`,
and `int` arithmetic that could overflow is wrapped with `toInt32`.
-/

namespace TouchDraw

/-! ## The I2C bus as seen through `Wire` -/

/-- One bus transaction, as recorded in the log of the bus. -/
inductive BusEvent where
  | transmit (address : Nat) (bytes : List Nat)
  | request (address : Nat) (quantity : Nat)
  deriving DecidableEq

/-- State of the `Wire` object together with the slaves behind it.
`device a bs` is what the slave at address `a` is ready to send after the
write transaction `bs` was addressed to it. -/
structure TwoWire where
  device : Nat → List Nat → List Nat
  pointer : Nat → List Nat
  txAddress : Nat
  txBuffer : List Nat
  rxBuffer : List Nat
  log : List BusEvent

namespace TwoWire

/-- Arduino `Wire.beginTransmission(address)`. -/
def beginTransmission (w : TwoWire) (address : Nat) : TwoWire :=
  { w with txAddress := address, txBuffer := [] }

/-- Arduino `Wire.write(value)` with an `int` argument: the low eight bits are queued. -/
def write (w : TwoWire) (value : Int) : TwoWire :=
  { w with txBuffer := w.txBuffer ++ [(value % 256).toNat] }

/-- Arduino `Wire.write(data, quantity)` with a byte buffer. -/
def writeBuf (w : TwoWire) (data : List Nat) (quantity : Nat) : TwoWire :=
  { w with txBuffer := w.txBuffer ++ data.take quantity }

/-- Arduino `Wire.endTransmission()`: the queued bytes go to the addressed slave. -/
def endTransmission (w : TwoWire) : TwoWire :=
  { w with
    pointer := fun a => if a = w.txAddress then w.txBuffer else w.pointer a
    txBuffer := []
    log := w.log ++ [BusEvent.transmit w.txAddress w.txBuffer] }

/-- Arduino `Wire.requestFrom(address, quantity)`: at most `quantity` bytes are clocked in. -/
def requestFrom (w : TwoWire) (address quantity : Nat) : TwoWire :=
  { w with
    rxBuffer := (w.device address (w.pointer address)).take quantity
    log := w.log ++ [BusEvent.request address quantity] }

/-- Arduino `Wire.available()`: number of received bytes not yet read. -/
def available (w : TwoWire) : Nat := w.rxBuffer.length

/-- Arduino `Wire.read()`: next received byte, or `-1` when there is none. -/
def read (w : TwoWire) : Int × TwoWire :=
  match w.rxBuffer with
  | [] => (-1, w)
  | b :: rest => ((b : Int), { w with rxBuffer := rest })

end TwoWire

/-! ## FT6236.h -/

def TOUCH_I2C_ADD : Nat := 0x38
def TOUCH_REG_XL : Int := 0x04
def TOUCH_REG_XH : Int := 0x03
def TOUCH_REG_YL : Int := 0x06
def TOUCH_REG_YH : Int := 0x05

/-! ## FT6236.cpp -/

/-- Source function `int readTouchReg(int reg)`: one register read, `0` when the
bus makes no byte available. -/
def readTouchReg (reg : Int) (w : TwoWire) : Int × TwoWire :=
  let data : Int := 0
  let w := w.beginTransmission TOUCH_I2C_ADD
  let w := w.write reg
  let w := w.endTransmission
  let w := w.requestFrom TOUCH_I2C_ADD 1
  if w.available ≠ 0 then
    w.read
  else
    (data, w)

/-- Source function `int getTouchPointX()`. -/
def getTouchPointX (w : TwoWire) : Int × TwoWire :=
  let (XH, w) := readTouchReg TOUCH_REG_XH w
  if XH >>> (6 : Nat) = 1 then
    (-1, w)
  else
    let (XL, w) := readTouchReg TOUCH_REG_XL w
    (Int.lor (Int.land XH 0x0F <<< (8 : Int)) XL, w)

/-- Source function `int getTouchPointY()`. -/
def getTouchPointY (w : TwoWire) : Int × TwoWire :=
  let (YH, w) := readTouchReg TOUCH_REG_YH w
  let (YL, w) := readTouchReg TOUCH_REG_YL w
  (Int.lor (Int.land YH 0x0F <<< (8 : Int)) YL, w)

/-- Source function `void ft6236_pos(int pos[2])`: the array is passed in and handed back. -/
def ft6236_pos (pos : Int × Int) (w : TwoWire) : (Int × Int) × TwoWire :=
  let (XH, w) := readTouchReg TOUCH_REG_XH w
  if XH >>> (6 : Nat) = 1 then
    let pos := ((-1 : Int), pos.2)
    let pos := (pos.1, (-1 : Int))
    (pos, w)
  else
    let (XL, w) := readTouchReg TOUCH_REG_XL w
    let (YH, w) := readTouchReg TOUCH_REG_YH w
    let (YL, w) := readTouchReg TOUCH_REG_YL w
    let pos := (Int.lor (Int.land XH 0x0F <<< (8 : Int)) XL, pos.2)
    let pos := (pos.1, Int.lor (Int.land YH 0x0F <<< (8 : Int)) YL)
    (pos, w)

/-! ## NS2009.h -/

def NS2009_ADDR : Nat := 0x48
def NS2009_LOW_POWER_READ_X : Nat := 0xc0
def NS2009_LOW_POWER_READ_Y : Nat := 0xd0
def NS2009_LOW_POWER_READ_Z1 : Nat := 0xe0
def SCREEN_X_PIXEL : Int := 320
def SCREEN_Y_PIXEL : Int := 480

/-! ## NS2009.cpp -/

/-- Conversion of a mathematical integer to a 32-bit two-complement `int`. -/
def toInt32 (z : Int) : Int := Int.bmod z (2 ^ 32)

/-- The loop `while (Wire.available()) *receive_buf++ = Wire.read();`, by
recursion on the bytes still waiting; `i` is the offset of `receive_buf`. -/
def recvLoop (rx : List Nat) (buf : List (Option Nat)) (i : Nat) : List (Option Nat) :=
  match rx with
  | [] => buf
  | b :: rest => recvLoop rest (buf.set i (some b)) (i + 1)

/-- Source function `void ns2009_recv(send_buf, send_buf_len, receive_buf, receive_buf_len)`.
A cell of the receive buffer is `none` while it is uninitialised. -/
def ns2009_recv (send_buf : List Nat) (send_buf_len : Nat) (receive_buf : List (Option Nat))
    (receive_buf_len : Nat) (w : TwoWire) : List (Option Nat) × TwoWire :=
  let w := w.beginTransmission NS2009_ADDR
  let w := w.writeBuf send_buf send_buf_len
  let w := w.endTransmission
  let w := w.requestFrom NS2009_ADDR receive_buf_len
  (recvLoop w.rxBuffer receive_buf 0, { w with rxBuffer := [] })

/-- Source function `unsigned int ns2009_read(uint8_t cmd)`.  Reading a cell of `buf` the bus
never filled has no defined value: the result is `none`. -/
def ns2009_read (cmd : Nat) (w : TwoWire) : Option (Nat × TwoWire) :=
  let buf : List (Option Nat) := [none, none]
  let (buf, w) := ns2009_recv [cmd] 1 buf 2 w
  match buf with
  | [some b0, some b1] => some (((b0 <<< 4) ||| (b1 >>> 4)) % 2 ^ 32, w)
  | _ => none

/-- Source function `int ns2009_get_press()`; the result is converted to `int`. -/
def ns2009_get_press (w : TwoWire) : Option (Int × TwoWire) :=
  match ns2009_read NS2009_LOW_POWER_READ_Z1 w with
  | some (r, w) => some (toInt32 r, w)
  | none => none

/-- Source function `int ns2009_pos(int pos[2])`: returns the pressure and the updated array. -/
def ns2009_pos (pos : Int × Int) (w : TwoWire) : Option (Int × (Int × Int) × TwoWire) :=
  match ns2009_read NS2009_LOW_POWER_READ_Z1 w with
  | none => none
  | some (r, w) =>
    let press : Int := toInt32 r
    match ns2009_read NS2009_LOW_POWER_READ_X w with
    | none => none
    | some (rx, w) =>
      let x : Int := toInt32 rx
      match ns2009_read NS2009_LOW_POWER_READ_Y w with
      | none => none
      | some (ry, w) =>
        let y : Int := toInt32 ry
        let pos := (Int.tdiv (toInt32 (x * SCREEN_X_PIXEL)) 4096, pos.2)
        let pos := (pos.1, Int.tdiv (toInt32 (y * SCREEN_Y_PIXEL)) 4096)
        some (press, pos, w)

/-! ## Concrete buses used to exercise the statements -/

/-- A `Wire` object at rest in front of the given slaves. -/
def idleWire (device : Nat → List Nat → List Nat) : TwoWire :=
  { device := device, pointer := fun _ => [], txAddress := 0, txBuffer := [],
    rxBuffer := [], log := [] }

/-- An FT6236 whose registers 3, 4, 5, 6 answer with the given byte lists. -/
def ft6236Device (xh xl yh yl : List Nat) : Nat → List Nat → List Nat :=
  fun a bs =>
    if a = 0x38 then
      if bs = [3] then xh else if bs = [4] then xl
      else if bs = [5] then yh else if bs = [6] then yl else []
    else []

/-- An NS2009 answering the Z1, X and Y commands with the given byte lists. -/
def ns2009Device (z x y : List Nat) : Nat → List Nat → List Nat :=
  fun a bs =>
    if a = 0x48 then
      if bs = [0xe0] then z else if bs = [0xc0] then x
      else if bs = [0xd0] then y else []
    else []

/-- The top two bits of a byte are binary `01`. -/
def topBits01 (b : Nat) : Prop := b.testBit 7 = false ∧ b.testBit 6 = true

instance (b : Nat) : Decidable (topBits01 b) := by
  unfold topBits01
  infer_instance

/-! ## Auxiliary definitions -/

/-- Value a register read yields on a bus with the given slaves: the first
byte offered, or `0` when none is offered. -/
def regVal (device : Nat → List Nat → List Nat) (reg : Int) : Int :=
  match device TOUCH_I2C_ADD [(reg % 256).toNat] with
  | [] => 0
  | b :: _ => (b : Int)

/-- The value `((H & 0x0F) << 8) | L` of the source, on `int` operands. -/
def pack (H L : Int) : Int := Int.lor (Int.land H 0x0F <<< (8 : Int)) L

/-- Value `ns2009_read` yields on a bus with the given slaves, when the slave
offers at least the two bytes the driver combines. -/
def rawRead (device : Nat → List Nat → List Nat) (cmd : Nat) : Option Nat :=
  match device NS2009_ADDR [cmd] with
  | b0 :: b1 :: _ => some (((b0 <<< 4) ||| (b1 >>> 4)) % 2 ^ 32)
  | _ => none

/-! ## Auxiliary facts -/

theorem readTouchReg_fst (reg : Int) (w : TwoWire) :
    (readTouchReg reg w).1 = regVal w.device reg := by
  simp only [readTouchReg, regVal, TwoWire.beginTransmission, TwoWire.write,
    TwoWire.endTransmission, TwoWire.requestFrom, TwoWire.available, TwoWire.read]
  cases h : w.device TOUCH_I2C_ADD [(reg % 256).toNat] with
  | nil => simp [h]
  | cons b t => simp [h]

theorem readTouchReg_device (reg : Int) (w : TwoWire) :
    (readTouchReg reg w).2.device = w.device := by
  simp only [readTouchReg, TwoWire.beginTransmission, TwoWire.write,
    TwoWire.endTransmission, TwoWire.requestFrom, TwoWire.available, TwoWire.read]
  cases h : w.device TOUCH_I2C_ADD [(reg % 256).toNat] with
  | nil => simp [h]
  | cons b t => simp [h]

theorem readTouchReg_log (reg : Int) (w : TwoWire) :
    (readTouchReg reg w).2.log =
      w.log ++ [BusEvent.transmit TOUCH_I2C_ADD [(reg % 256).toNat],
                BusEvent.request TOUCH_I2C_ADD 1] := by
  simp only [readTouchReg, TwoWire.beginTransmission, TwoWire.write,
    TwoWire.endTransmission, TwoWire.requestFrom, TwoWire.available, TwoWire.read]
  cases h : w.device TOUCH_I2C_ADD [(reg % 256).toNat] with
  | nil => simp [h]
  | cons b t => simp [h]

theorem regVal_of_head (device : Nat → List Nat → List Nat) (reg : Int) (r v : Nat)
    (hr : (reg % 256).toNat = r) (h : (device 0x38 [r]).head? = some v) :
    regVal device reg = (v : Int) := by
  unfold regVal TOUCH_I2C_ADD
  rw [hr]
  cases hd : device 0x38 [r] with
  | nil => rw [hd] at h; simp at h
  | cons b t => rw [hd] at h; simp at h; simp [h]

theorem regVal_of_nil (device : Nat → List Nat → List Nat) (reg : Int) (r : Nat)
    (hr : (reg % 256).toNat = r) (h : device 0x38 [r] = []) : regVal device reg = 0 := by
  unfold regVal TOUCH_I2C_ADD
  rw [hr, h]

/-- The packing `((H & 0x0F) << 8) | L` on bytes. -/
theorem pack_bytes (H L : Nat) (hL : L < 256) :
    Int.lor (Int.land (H : Int) 0x0F <<< (8 : Int)) (L : Int) = ((H % 16 * 256 + L : Nat) : Int) := by
  have h1 : Int.land (H : Int) 0x0F = ((H &&& 15 : Nat) : Int) := rfl
  have h2 : ((H &&& 15 : Nat) : Int) <<< (8 : Int) = (((H &&& 15) <<< 8 : Nat) : Int) :=
    Int.shiftLeft_coe_nat _ 8
  have h3 : Int.lor ((((H &&& 15) <<< 8 : Nat)) : Int) (L : Int)
      = ((((H &&& 15) <<< 8) ||| L : Nat) : Int) := rfl
  rw [h1, h2, h3]
  have h4 : H &&& 15 = H % 16 := Nat.and_pow_two_sub_one_eq_mod H 4
  have h5 : 2 ^ 8 * (H % 16) + L = 2 ^ 8 * (H % 16) ||| L := Nat.mul_add_lt_is_or hL _
  rw [h4, Nat.shiftLeft_eq, Nat.mul_comm, ← h5]

/-- The test `H >> 6 == 1` on a byte. -/
theorem shift6_eq_one (H : Nat) : ((H : Int) >>> (6 : Nat) = 1) ↔ (64 ≤ H ∧ H ≤ 127) := by
  have h1 : (H : Int) >>> (6 : Nat) = ((H >>> 6 : Nat) : Int) := rfl
  rw [h1, Nat.shiftRight_eq_div_pow]
  constructor
  · intro h
    have : H / 2 ^ 6 = 1 := by exact_mod_cast h
    omega
  · intro h
    have : H / 2 ^ 6 = 1 := by omega
    exact_mod_cast this

/-- The top two bits of a byte are `01` exactly on the range 64..127. -/
theorem top_bits_01 (H : Nat) (hH : H < 256) :
    (H.testBit 7 = false ∧ H.testBit 6 = true) ↔ (64 ≤ H ∧ H ≤ 127) := by
  simp only [Nat.testBit_to_div_mod, decide_eq_false_iff_not, decide_eq_true_eq]
  omega

theorem ft6236_pos_fst (pos : Int × Int) (w : TwoWire) :
    (ft6236_pos pos w).1 =
      if regVal w.device 3 >>> (6 : Nat) = 1 then (-1, -1)
      else (pack (regVal w.device 3) (regVal w.device 4),
            pack (regVal w.device 5) (regVal w.device 6)) := by
  unfold ft6236_pos
  dsimp only
  repeat rw [readTouchReg_fst]
  repeat rw [readTouchReg_device]
  unfold pack TOUCH_REG_XH TOUCH_REG_XL TOUCH_REG_YH TOUCH_REG_YL
  split <;> rfl

theorem ft6236_pos_log (pos : Int × Int) (w : TwoWire) :
    (ft6236_pos pos w).2.log =
      w.log ++ (BusEvent.transmit 0x38 [3] :: BusEvent.request 0x38 1 ::
        if regVal w.device 3 >>> (6 : Nat) = 1 then []
        else [BusEvent.transmit 0x38 [4], BusEvent.request 0x38 1,
              BusEvent.transmit 0x38 [5], BusEvent.request 0x38 1,
              BusEvent.transmit 0x38 [6], BusEvent.request 0x38 1]) := by
  unfold ft6236_pos
  dsimp only
  rw [readTouchReg_fst]
  have e3 : ((TOUCH_REG_XH % 256).toNat) = 3 := by decide
  have e4 : ((TOUCH_REG_XL % 256).toNat) = 4 := by decide
  have e5 : ((TOUCH_REG_YH % 256).toNat) = 5 := by decide
  have e6 : ((TOUCH_REG_YL % 256).toNat) = 6 := by decide
  have eX : TOUCH_REG_XH = 3 := rfl
  by_cases h : regVal w.device 3 >>> (6 : Nat) = 1
  · rw [eX, if_pos h, if_pos h]
    dsimp only
    rw [← eX, readTouchReg_log, e3]
    rfl
  · rw [eX, if_neg h, if_neg h]
    dsimp only
    rw [← eX]
    repeat rw [readTouchReg_log]
    rw [e3, e4, e5, e6]
    simp [TOUCH_I2C_ADD]

theorem getTouchPointX_fst (w : TwoWire) :
    (getTouchPointX w).1 =
      if regVal w.device 3 >>> (6 : Nat) = 1 then -1
      else pack (regVal w.device 3) (regVal w.device 4) := by
  unfold getTouchPointX
  dsimp only
  repeat rw [readTouchReg_fst]
  repeat rw [readTouchReg_device]
  unfold pack TOUCH_REG_XH TOUCH_REG_XL
  split <;> rfl

theorem getTouchPointY_fst (w : TwoWire) :
    (getTouchPointY w).1 = pack (regVal w.device 5) (regVal w.device 6) := by
  unfold getTouchPointY
  dsimp only
  repeat rw [readTouchReg_fst]
  repeat rw [readTouchReg_device]
  rfl

theorem getTouchPointY_log (w : TwoWire) :
    (getTouchPointY w).2.log =
      w.log ++ [BusEvent.transmit 0x38 [5], BusEvent.request 0x38 1,
                BusEvent.transmit 0x38 [6], BusEvent.request 0x38 1] := by
  have e5 : ((TOUCH_REG_YH % 256).toNat) = 5 := by decide
  have e6 : ((TOUCH_REG_YL % 256).toNat) = 6 := by decide
  unfold getTouchPointY
  dsimp only
  repeat rw [readTouchReg_log]
  rw [e5, e6]
  simp [TOUCH_I2C_ADD]

/-- A register read never yields a negative value. -/
theorem regVal_eq_cast (device : Nat → List Nat → List Nat) (reg : Int) :
    ∃ n : Nat, regVal device reg = (n : Int) := by
  unfold regVal
  cases device TOUCH_I2C_ADD [(reg % 256).toNat] with
  | nil => exact ⟨0, rfl⟩
  | cons b t => exact ⟨b, rfl⟩

theorem pack_cast_nonneg (H L : Nat) : 0 ≤ pack (H : Int) (L : Int) := by
  have h1 : Int.land (H : Int) 0x0F = ((H &&& 15 : Nat) : Int) := rfl
  have h2 : ((H &&& 15 : Nat) : Int) <<< (8 : Int) = (((H &&& 15) <<< 8 : Nat) : Int) :=
    Int.shiftLeft_coe_nat _ 8
  have h3 : Int.lor ((((H &&& 15) <<< 8 : Nat)) : Int) (L : Int)
      = ((((H &&& 15) <<< 8) ||| L : Nat) : Int) := rfl
  unfold pack
  rw [h1, h2, h3]
  exact Int.ofNat_nonneg _

/-- The packing `(b0 << 4) | (b1 >> 4)` on bytes. -/
theorem raw12_eq (b0 b1 : Nat) (h1 : b1 < 256) :
    (b0 <<< 4) ||| (b1 >>> 4) = b0 * 16 + b1 / 16 := by
  have hlt : b1 / 16 < 2 ^ 4 := by omega
  have h5 : 2 ^ 4 * b0 + b1 / 16 = 2 ^ 4 * b0 ||| b1 / 16 := Nat.mul_add_lt_is_or hlt _
  rw [Nat.shiftLeft_eq, Nat.shiftRight_eq_div_pow, Nat.mul_comm, ← h5]

theorem toInt32_small (n : Nat) (h : n < 2 ^ 31) : toInt32 (n : Int) = (n : Int) := by
  unfold toInt32
  rw [Int.bmod_def]
  norm_num
  omega

/-- A 12-bit raw value as an `int`: neither the reduction to `unsigned int`
nor the conversion to `int` changes it. -/
theorem raw12_int (b0 b1 : Nat) (h0 : b0 < 256) (h1 : b1 < 256) :
    toInt32 ((((b0 <<< 4) ||| (b1 >>> 4)) % 2 ^ 32 : Nat) : Int)
      = (((b0 <<< 4) ||| (b1 >>> 4) : Nat) : Int) ∧
    (b0 <<< 4) ||| (b1 >>> 4) ≤ 4095 := by
  have e := raw12_eq b0 b1 h1
  have hb : (b0 <<< 4) ||| (b1 >>> 4) ≤ 4095 := by omega
  have hm : ((b0 <<< 4) ||| (b1 >>> 4)) % 2 ^ 32 = (b0 <<< 4) ||| (b1 >>> 4) :=
    Nat.mod_eq_of_lt (by omega)
  rw [hm]
  exact ⟨toInt32_small _ (by omega), hb⟩

/-- Scaling of a 12-bit value by a screen dimension in 32-bit `int`. -/
theorem scale_int (x : Nat) (hx : x ≤ 4095) (k : Nat) (hk : k ≤ 480) :
    Int.tdiv (toInt32 ((x : Int) * (k : Int))) 4096 = ((x * k / 4096 : Nat) : Int) := by
  have hp : x * k ≤ 4095 * 480 := Nat.mul_le_mul hx hk
  have e : (x : Int) * (k : Int) = ((x * k : Nat) : Int) := by push_cast; rfl
  rw [e, toInt32_small _ (by omega)]
  rfl

theorem ns2009_read_cases (cmd : Nat) (w : TwoWire) :
    (ns2009_read cmd w = none ∧ rawRead w.device cmd = none) ∨
    ∃ v w2, ns2009_read cmd w = some (v, w2) ∧ rawRead w.device cmd = some v ∧
      w2.device = w.device := by
  rcases h : w.device NS2009_ADDR [cmd] with _ | ⟨b0, _ | ⟨b1, rest⟩⟩
  · left
    simp [ns2009_read, ns2009_recv, TwoWire.beginTransmission, TwoWire.writeBuf,
      TwoWire.endTransmission, TwoWire.requestFrom, h, recvLoop, rawRead]
  · left
    simp [ns2009_read, ns2009_recv, TwoWire.beginTransmission, TwoWire.writeBuf,
      TwoWire.endTransmission, TwoWire.requestFrom, h, recvLoop, rawRead]
  · right
    simp [ns2009_read, ns2009_recv, TwoWire.beginTransmission, TwoWire.writeBuf,
      TwoWire.endTransmission, TwoWire.requestFrom, h, recvLoop, rawRead]
    exact ⟨_, _, ⟨rfl, rfl⟩, rfl, rfl⟩

theorem ns2009_read_map (cmd : Nat) (w : TwoWire) :
    (ns2009_read cmd w).map Prod.fst = rawRead w.device cmd := by
  rcases ns2009_read_cases cmd w with ⟨a, b⟩ | ⟨v, w2, a, b, _⟩
  · rw [a, b]; rfl
  · rw [a, b]; rfl

theorem ns2009_pos_map (pos : Int × Int) (w : TwoWire) (p x y : Nat)
    (hp : rawRead w.device NS2009_LOW_POWER_READ_Z1 = some p)
    (hx : rawRead w.device NS2009_LOW_POWER_READ_X = some x)
    (hy : rawRead w.device NS2009_LOW_POWER_READ_Y = some y) :
    (ns2009_pos pos w).map (fun r => (r.1, r.2.1)) =
      some (toInt32 (p : Int),
        (Int.tdiv (toInt32 (toInt32 (x : Int) * SCREEN_X_PIXEL)) 4096,
         Int.tdiv (toInt32 (toInt32 (y : Int) * SCREEN_Y_PIXEL)) 4096)) := by
  rcases ns2009_read_cases NS2009_LOW_POWER_READ_Z1 w with ⟨_, b⟩ | ⟨v1, w1, a1, b1, d1⟩
  · rw [hp] at b; cases b
  rcases ns2009_read_cases NS2009_LOW_POWER_READ_X w1 with ⟨_, b⟩ | ⟨v2, w2, a2, b2, d2⟩
  · rw [d1, hx] at b; cases b
  rcases ns2009_read_cases NS2009_LOW_POWER_READ_Y w2 with ⟨_, b⟩ | ⟨v3, w3, a3, b3, _⟩
  · rw [d2, d1, hy] at b; cases b
  rw [hp] at b1
  rw [d1, hx] at b2
  rw [d2, d1, hy] at b3
  cases b1
  cases b2
  cases b3
  unfold ns2009_pos
  rw [a1]
  dsimp only
  rw [a2]
  dsimp only
  rw [a3, Option.map_some']

theorem ns2009_get_press_map (w : TwoWire) (p : Nat)
    (hp : rawRead w.device NS2009_LOW_POWER_READ_Z1 = some p) :
    (ns2009_get_press w).map Prod.fst = some (toInt32 (p : Int)) := by
  rcases ns2009_read_cases NS2009_LOW_POWER_READ_Z1 w with ⟨_, b⟩ | ⟨v1, w1, a1, b1, _⟩
  · rw [hp] at b; cases b
  rw [hp] at b1
  cases b1
  unfold ns2009_get_press
  rw [a1, Option.map_some']

theorem rawRead_of_answer (device : Nat → List Nat → List Nat) (cmd b0 b1 : Nat)
    (rest : List Nat) (h : device 0x48 [cmd] = b0 :: b1 :: rest) :
    rawRead device cmd = some (((b0 <<< 4) ||| (b1 >>> 4)) % 2 ^ 32) := by
  unfold rawRead NS2009_ADDR
  rw [h]

/-! ## The capacitive path -/

/-- C1: for a byte XH held by the X-high register and whatever the other
registers hold, `ft6236_pos` stores the sentinel (-1, -1) exactly when the top
two bits of XH are 01, that is when 64 ≤ XH ≤ 127; XH = 0x41 gives the
sentinel, and a position that is not the sentinel has a non-negative
`pos[0]`, so never -1. -/
theorem ft6236_pos_sentinel_iff (pos : Int × Int) (w : TwoWire) (XH : Nat)
    (hXH : XH < 256) (h3 : (w.device 0x38 [3]).head? = some XH) :
    ((ft6236_pos pos w).1 = (-1, -1) ↔ topBits01 XH) ∧
    (topBits01 XH ↔ (64 ≤ XH ∧ XH ≤ 127)) ∧
    (XH = 0x41 → (ft6236_pos pos w).1 = (-1, -1)) ∧
    ((ft6236_pos pos w).1 ≠ (-1, -1) →
      0 ≤ (ft6236_pos pos w).1.1 ∧ (ft6236_pos pos w).1.1 ≠ -1) := by
  have e := regVal_of_head w.device 3 3 XH rfl h3
  have t := top_bits_01 XH hXH
  have s6 := shift6_eq_one XH
  obtain ⟨n4, e4⟩ := regVal_eq_cast w.device 4
  have nn := pack_cast_nonneg XH n4
  have key : (ft6236_pos pos w).1 = (-1, -1) ↔ (64 ≤ XH ∧ XH ≤ 127) := by
    rw [ft6236_pos_fst, e, e4]
    by_cases c : (XH : Int) >>> (6 : Nat) = 1
    · rw [if_pos c]
      exact ⟨fun _ => s6.mp c, fun _ => rfl⟩
    · rw [if_neg c]
      constructor
      · intro hp
        have h1 : pack (XH : Int) (n4 : Int) = -1 := congrArg Prod.fst hp
        omega
      · intro hr
        exact absurd (s6.mpr hr) c
  refine ⟨?_, t, ?_, ?_⟩
  · unfold topBits01
    rw [key, t]
  · intro hx
    exact key.mpr (by omega)
  · intro hne
    have c : ¬ ((XH : Int) >>> (6 : Nat) = 1) := fun c => hne (key.mpr (s6.mp c))
    rw [ft6236_pos_fst, e, e4, if_neg c]
    dsimp only
    omega

theorem ft6236_pos_sentinel_iff_witness :
    ((ft6236_pos (7, 7) (idleWire (ft6236Device [0x41] [1] [2] [3]))).1 = (-1, -1)
      ↔ topBits01 0x41) ∧
    (topBits01 0x41 ↔ (64 ≤ 0x41 ∧ 0x41 ≤ 127)) ∧
    (0x41 = 0x41 → (ft6236_pos (7, 7) (idleWire (ft6236Device [0x41] [1] [2] [3]))).1
      = (-1, -1)) ∧
    ((ft6236_pos (7, 7) (idleWire (ft6236Device [0x41] [1] [2] [3]))).1 ≠ (-1, -1) →
      0 ≤ (ft6236_pos (7, 7) (idleWire (ft6236Device [0x41] [1] [2] [3]))).1.1 ∧
      (ft6236_pos (7, 7) (idleWire (ft6236Device [0x41] [1] [2] [3]))).1.1 ≠ -1) :=
  ft6236_pos_sentinel_iff (7, 7) (idleWire (ft6236Device [0x41] [1] [2] [3])) 0x41
    (by decide) rfl

/-- C2: for bytes XH, XL, YH, YL held by the four registers, with the top two
bits of XH not 01, `ft6236_pos` stores pos[0] = ((XH & 0x0F) << 8) | XL =
(XH mod 16)*256 + XL and pos[1] = ((YH & 0x0F) << 8) | YL = (YH mod 16)*256 + YL,
both within 0..4095; XH = 0x03 with XL = 0xFF gives pos[0] = 1023. -/
theorem ft6236_pos_touch (pos : Int × Int) (w : TwoWire) (XH XL YH YL : Nat)
    (hXH : XH < 256) (hXL : XL < 256) (hYL : YL < 256)
    (h3 : (w.device 0x38 [3]).head? = some XH) (h4 : (w.device 0x38 [4]).head? = some XL)
    (h5 : (w.device 0x38 [5]).head? = some YH) (h6 : (w.device 0x38 [6]).head? = some YL)
    (hno : ¬ topBits01 XH) :
    (ft6236_pos pos w).1 =
      (Int.lor (Int.land (XH : Int) 0x0F <<< (8 : Int)) (XL : Int),
       Int.lor (Int.land (YH : Int) 0x0F <<< (8 : Int)) (YL : Int)) ∧
    (ft6236_pos pos w).1 = (((XH % 16 * 256 + XL : Nat) : Int), ((YH % 16 * 256 + YL : Nat) : Int)) ∧
    XH % 16 * 256 + XL ≤ 4095 ∧ YH % 16 * 256 + YL ≤ 4095 ∧
    (XH = 0x03 → XL = 0xFF → (ft6236_pos pos w).1.1 = 1023) := by
  have e3 := regVal_of_head w.device 3 3 XH rfl h3
  have e4 := regVal_of_head w.device 4 4 XL rfl h4
  have e5 := regVal_of_head w.device 5 5 YH rfl h5
  have e6 := regVal_of_head w.device 6 6 YL rfl h6
  have c : ¬ ((XH : Int) >>> (6 : Nat) = 1) :=
    fun c => hno ((top_bits_01 XH hXH).mpr ((shift6_eq_one XH).mp c))
  have main : (ft6236_pos pos w).1 = (pack (XH : Int) (XL : Int), pack (YH : Int) (YL : Int)) := by
    rw [ft6236_pos_fst, e3, e4, e5, e6, if_neg c]
  have px : pack (XH : Int) (XL : Int) = ((XH % 16 * 256 + XL : Nat) : Int) := pack_bytes XH XL hXL
  have py : pack (YH : Int) (YL : Int) = ((YH % 16 * 256 + YL : Nat) : Int) := pack_bytes YH YL hYL
  refine ⟨main, ?_, by omega, by omega, ?_⟩
  · rw [main, px, py]
  · intro hx hl
    rw [main, px, hx, hl]
    rfl

theorem ft6236_pos_touch_witness :
    (ft6236_pos (7, 7) (idleWire (ft6236Device [0x03] [0xFF] [0x12] [0x34]))).1 =
      (Int.lor (Int.land ((0x03 : Nat) : Int) 0x0F <<< (8 : Int)) ((0xFF : Nat) : Int),
       Int.lor (Int.land ((0x12 : Nat) : Int) 0x0F <<< (8 : Int)) ((0x34 : Nat) : Int)) ∧
    (ft6236_pos (7, 7) (idleWire (ft6236Device [0x03] [0xFF] [0x12] [0x34]))).1 =
      (((0x03 % 16 * 256 + 0xFF : Nat) : Int), ((0x12 % 16 * 256 + 0x34 : Nat) : Int)) ∧
    0x03 % 16 * 256 + 0xFF ≤ 4095 ∧ 0x12 % 16 * 256 + 0x34 ≤ 4095 ∧
    (0x03 = 0x03 → 0xFF = 0xFF →
      (ft6236_pos (7, 7) (idleWire (ft6236Device [0x03] [0xFF] [0x12] [0x34]))).1.1 = 1023) :=
  ft6236_pos_touch (7, 7) (idleWire (ft6236Device [0x03] [0xFF] [0x12] [0x34]))
    0x03 0xFF 0x12 0x34 (by decide) (by decide) (by decide) rfl rfl rfl rfl
    (by decide)

/-- C5: for bytes XH, XL held by the X registers, `getTouchPointX` returns -1
when the top two bits of XH are 01 and ((XH & 0x0F) << 8) | XL otherwise; on
the same slaves it returns exactly the pos[0] that `ft6236_pos` stores. -/
theorem getTouchPointX_spec (pos : Int × Int) (w : TwoWire) (XH XL : Nat)
    (hXH : XH < 256) (hXL : XL < 256)
    (h3 : (w.device 0x38 [3]).head? = some XH) (h4 : (w.device 0x38 [4]).head? = some XL) :
    (getTouchPointX w).1 =
      (if topBits01 XH then -1
       else Int.lor (Int.land (XH : Int) 0x0F <<< (8 : Int)) (XL : Int)) ∧
    (¬ topBits01 XH → (getTouchPointX w).1 = ((XH % 16 * 256 + XL : Nat) : Int)) ∧
    (getTouchPointX w).1 = (ft6236_pos pos w).1.1 ∧
    (∀ w2 : TwoWire, w2.device = w.device →
      (getTouchPointX w).1 = (ft6236_pos pos w2).1.1) := by
  have e3 := regVal_of_head w.device 3 3 XH rfl h3
  have e4 := regVal_of_head w.device 4 4 XL rfl h4
  have tb : topBits01 XH ↔ (XH : Int) >>> (6 : Nat) = 1 :=
    (top_bits_01 XH hXH).trans (shift6_eq_one XH).symm
  have same : ∀ w2 : TwoWire, w2.device = w.device →
      (getTouchPointX w).1 = (ft6236_pos pos w2).1.1 := by
    intro w2 hd
    rw [getTouchPointX_fst, ft6236_pos_fst, hd]
    split <;> rfl
  have main : (getTouchPointX w).1 =
      (if topBits01 XH then -1 else pack (XH : Int) (XL : Int)) := by
    rw [getTouchPointX_fst, e3, e4]
    by_cases c : topBits01 XH
    · rw [if_pos c, if_pos (tb.mp c)]
    · rw [if_neg c, if_neg (fun c2 => c (tb.mpr c2))]
  refine ⟨main, ?_, same w rfl, same⟩
  intro hno
  rw [main, if_neg hno]
  exact pack_bytes XH XL hXL

theorem getTouchPointX_spec_witness :
    (getTouchPointX (idleWire (ft6236Device [0x03] [0xFF] [0x12] [0x34]))).1 =
      (if topBits01 0x03 then -1
       else Int.lor (Int.land ((0x03 : Nat) : Int) 0x0F <<< (8 : Int)) ((0xFF : Nat) : Int)) ∧
    (¬ topBits01 0x03 →
      (getTouchPointX (idleWire (ft6236Device [0x03] [0xFF] [0x12] [0x34]))).1
        = ((0x03 % 16 * 256 + 0xFF : Nat) : Int)) ∧
    (getTouchPointX (idleWire (ft6236Device [0x03] [0xFF] [0x12] [0x34]))).1 =
      (ft6236_pos (7, 7) (idleWire (ft6236Device [0x03] [0xFF] [0x12] [0x34]))).1.1 ∧
    (∀ w2 : TwoWire, w2.device = (idleWire (ft6236Device [0x03] [0xFF] [0x12] [0x34])).device →
      (getTouchPointX (idleWire (ft6236Device [0x03] [0xFF] [0x12] [0x34]))).1
        = (ft6236_pos (7, 7) w2).1.1) :=
  getTouchPointX_spec (7, 7) (idleWire (ft6236Device [0x03] [0xFF] [0x12] [0x34]))
    0x03 0xFF (by decide) (by decide) rfl rfl

/-- C6: on a bus that logs every transaction, `ft6236_pos` first addresses
register 0x03; when the byte XH it holds has top two bits 01 nothing more is
put on the bus; otherwise registers 0x04, 0x05, 0x06 are read once each, in
that order, every read asking for one byte. -/
theorem ft6236_pos_bus_trace (pos : Int × Int) (w : TwoWire) (XH : Nat)
    (hXH : XH < 256) (h3 : (w.device 0x38 [3]).head? = some XH) :
    (ft6236_pos pos w).2.log =
      w.log ++ (BusEvent.transmit 0x38 [3] :: BusEvent.request 0x38 1 ::
        if topBits01 XH then []
        else [BusEvent.transmit 0x38 [4], BusEvent.request 0x38 1,
              BusEvent.transmit 0x38 [5], BusEvent.request 0x38 1,
              BusEvent.transmit 0x38 [6], BusEvent.request 0x38 1]) := by
  have e3 := regVal_of_head w.device 3 3 XH rfl h3
  have tb : topBits01 XH ↔ (XH : Int) >>> (6 : Nat) = 1 :=
    (top_bits_01 XH hXH).trans (shift6_eq_one XH).symm
  rw [ft6236_pos_log, e3]
  by_cases c : topBits01 XH
  · rw [if_pos c, if_pos (tb.mp c)]
  · rw [if_neg c, if_neg (fun c2 => c (tb.mpr c2))]

theorem ft6236_pos_bus_trace_witness :
    (ft6236_pos (7, 7) (idleWire (ft6236Device [0x03] [0xFF] [0x12] [0x34]))).2.log =
      (idleWire (ft6236Device [0x03] [0xFF] [0x12] [0x34])).log ++
       (BusEvent.transmit 0x38 [3] :: BusEvent.request 0x38 1 ::
        if topBits01 0x03 then []
        else [BusEvent.transmit 0x38 [4], BusEvent.request 0x38 1,
              BusEvent.transmit 0x38 [5], BusEvent.request 0x38 1,
              BusEvent.transmit 0x38 [6], BusEvent.request 0x38 1]) :=
  ft6236_pos_bus_trace (7, 7) (idleWire (ft6236Device [0x03] [0xFF] [0x12] [0x34])) 0x03
    (by decide) rfl

/-- C8: for bytes YH, YL held by the Y registers, `getTouchPointY` reads the
registers 0x05 and 0x06 (and no other) and returns
((YH & 0x0F) << 8) | YL = (YH mod 16)*256 + YL, within 0..4095, whatever the
X-high register holds; it is never -1, and when the top two bits of the
X-high byte are 01 it differs from the pos[1] = -1 stored by `ft6236_pos`. -/
theorem getTouchPointY_spec (pos : Int × Int) (w : TwoWire) (YH YL : Nat)
    (hYL : YL < 256)
    (h5 : (w.device 0x38 [5]).head? = some YH) (h6 : (w.device 0x38 [6]).head? = some YL) :
    (getTouchPointY w).1 = Int.lor (Int.land (YH : Int) 0x0F <<< (8 : Int)) (YL : Int) ∧
    (getTouchPointY w).1 = ((YH % 16 * 256 + YL : Nat) : Int) ∧
    0 ≤ (getTouchPointY w).1 ∧ (getTouchPointY w).1 ≤ 4095 ∧
    (getTouchPointY w).1 ≠ -1 ∧
    (getTouchPointY w).2.log =
      w.log ++ [BusEvent.transmit 0x38 [5], BusEvent.request 0x38 1,
                BusEvent.transmit 0x38 [6], BusEvent.request 0x38 1] ∧
    (∀ XH : Nat, XH < 256 → (w.device 0x38 [3]).head? = some XH → topBits01 XH →
      (ft6236_pos pos w).1.2 = -1 ∧ (getTouchPointY w).1 ≠ (ft6236_pos pos w).1.2) := by
  have e5 := regVal_of_head w.device 5 5 YH rfl h5
  have e6 := regVal_of_head w.device 6 6 YL rfl h6
  have main : (getTouchPointY w).1 = pack (YH : Int) (YL : Int) := by
    rw [getTouchPointY_fst, e5, e6]
  have py : pack (YH : Int) (YL : Int) = ((YH % 16 * 256 + YL : Nat) : Int) := pack_bytes YH YL hYL
  have val : (getTouchPointY w).1 = ((YH % 16 * 256 + YL : Nat) : Int) := by rw [main, py]
  refine ⟨main, val, by omega, by omega, by omega, getTouchPointY_log w, ?_⟩
  intro XH hXH h3 htb
  have e3 := regVal_of_head w.device 3 3 XH rfl h3
  have c : (XH : Int) >>> (6 : Nat) = 1 :=
    (shift6_eq_one XH).mpr ((top_bits_01 XH hXH).mp htb)
  have sp : (ft6236_pos pos w).1.2 = -1 := by
    rw [ft6236_pos_fst, e3, if_pos c]
  refine ⟨sp, ?_⟩
  rw [sp]
  omega

theorem getTouchPointY_spec_witness :
    (getTouchPointY (idleWire (ft6236Device [0x41] [0xFF] [0x12] [0x34]))).1 =
      Int.lor (Int.land ((0x12 : Nat) : Int) 0x0F <<< (8 : Int)) ((0x34 : Nat) : Int) ∧
    (getTouchPointY (idleWire (ft6236Device [0x41] [0xFF] [0x12] [0x34]))).1 =
      ((0x12 % 16 * 256 + 0x34 : Nat) : Int) ∧
    (ft6236_pos (7, 7) (idleWire (ft6236Device [0x41] [0xFF] [0x12] [0x34]))).1.2 = -1 ∧
    (getTouchPointY (idleWire (ft6236Device [0x41] [0xFF] [0x12] [0x34]))).1 ≠
      (ft6236_pos (7, 7) (idleWire (ft6236Device [0x41] [0xFF] [0x12] [0x34]))).1.2 :=
  have t := getTouchPointY_spec (7, 7) (idleWire (ft6236Device [0x41] [0xFF] [0x12] [0x34]))
    0x12 0x34 (by decide) rfl rfl
  ⟨t.1, t.2.1, t.2.2.2.2.2.2 0x41 (by decide) rfl (by decide)⟩

/-- C9: a register read for which the bus makes no byte available returns 0;
when none of the four coordinate registers yields a byte, `ft6236_pos` stores
(0, 0), which is not the sentinel (-1, -1). -/
theorem ft6236_pos_silent_bus (pos : Int × Int) (w : TwoWire) :
    (∀ reg : Int, w.device 0x38 [(reg % 256).toNat] = [] → (readTouchReg reg w).1 = 0) ∧
    ((w.device 0x38 [3] = [] ∧ w.device 0x38 [4] = [] ∧
        w.device 0x38 [5] = [] ∧ w.device 0x38 [6] = []) →
      (ft6236_pos pos w).1 = (0, 0) ∧ (ft6236_pos pos w).1 ≠ (-1, -1)) := by
  constructor
  · intro reg h
    rw [readTouchReg_fst]
    exact regVal_of_nil w.device reg _ rfl h
  · rintro ⟨h3, h4, h5, h6⟩
    have e3 := regVal_of_nil w.device 3 3 rfl h3
    have e4 := regVal_of_nil w.device 4 4 rfl h4
    have e5 := regVal_of_nil w.device 5 5 rfl h5
    have e6 := regVal_of_nil w.device 6 6 rfl h6
    have main : (ft6236_pos pos w).1 = (0, 0) := by
      rw [ft6236_pos_fst, e3, e4, e5, e6]
      rfl
    refine ⟨main, ?_⟩
    rw [main]
    decide

theorem ft6236_pos_silent_bus_witness :
    (readTouchReg 3 (idleWire (ft6236Device [] [] [] []))).1 = 0 ∧
    (ft6236_pos (7, 7) (idleWire (ft6236Device [] [] [] []))).1 = (0, 0) ∧
    (ft6236_pos (7, 7) (idleWire (ft6236Device [] [] [] []))).1 ≠ (-1, -1) :=
  have t := ft6236_pos_silent_bus (7, 7) (idleWire (ft6236Device [] [] [] []))
  ⟨t.1 3 rfl, t.2 ⟨rfl, rfl, rfl, rfl⟩⟩

/-! ## The resistive path -/

/-- C3: when the bus answers a command with the bytes b0, b1,
`ns2009_read` returns (b0 << 4) | (b1 >> 4); this is
floor((256*b0 + b1) / 16), lies within 0..4095, and is the same for any other
second byte that agrees with b1 above its low four bits. -/
theorem ns2009_read_spec (cmd b0 b1 : Nat) (rest : List Nat) (w : TwoWire)
    (h0 : b0 < 256) (h1 : b1 < 256) (h : w.device 0x48 [cmd] = b0 :: b1 :: rest) :
    (ns2009_read cmd w).map Prod.fst = some ((b0 <<< 4) ||| (b1 >>> 4)) ∧
    (b0 <<< 4) ||| (b1 >>> 4) = (256 * b0 + b1) / 16 ∧
    (b0 <<< 4) ||| (b1 >>> 4) ≤ 4095 ∧
    (∀ (w2 : TwoWire) (c : Nat) (rest2 : List Nat), c < 256 → c / 16 = b1 / 16 →
      w2.device 0x48 [cmd] = b0 :: c :: rest2 →
      (ns2009_read cmd w2).map Prod.fst = (ns2009_read cmd w).map Prod.fst) := by
  have e := raw12_eq b0 b1 h1
  have val : ∀ (w2 : TwoWire) (c : Nat) (rest2 : List Nat), c < 256 →
      w2.device 0x48 [cmd] = b0 :: c :: rest2 →
      (ns2009_read cmd w2).map Prod.fst = some (b0 * 16 + c / 16) := by
    intro w2 c rest2 hc hd
    have ec := raw12_eq b0 c hc
    rw [ns2009_read_map, rawRead_of_answer w2.device cmd b0 c rest2 hd, ec]
    congr 1
    exact Nat.mod_eq_of_lt (by omega)
  refine ⟨?_, by omega, by omega, ?_⟩
  · rw [val w b1 rest h1 h, e]
  · intro w2 c rest2 hc hhi hd
    rw [val w2 c rest2 hc hd, val w b1 rest h1 h, hhi]

theorem ns2009_read_spec_witness :
    (ns2009_read 0xc0 (idleWire (ns2009Device [1, 0x23] [0xAB, 0xCD] [0x80, 0]))).map Prod.fst
      = some ((0xAB <<< 4) ||| (0xCD >>> 4)) ∧
    (0xAB <<< 4) ||| (0xCD >>> 4) = (256 * 0xAB + 0xCD) / 16 ∧
    (0xAB <<< 4) ||| (0xCD >>> 4) ≤ 4095 ∧
    (ns2009_read 0xc0 (idleWire (ns2009Device [1, 0x23] [0xAB, 0xC2] [0x80, 0]))).map Prod.fst
      = (ns2009_read 0xc0 (idleWire (ns2009Device [1, 0x23] [0xAB, 0xCD] [0x80, 0]))).map
          Prod.fst :=
  have t := ns2009_read_spec 0xc0 0xAB 0xCD []
    (idleWire (ns2009Device [1, 0x23] [0xAB, 0xCD] [0x80, 0])) (by decide) (by decide) rfl
  ⟨t.1, t.2.1, t.2.2.1,
    t.2.2.2 (idleWire (ns2009Device [1, 0x23] [0xAB, 0xC2] [0x80, 0])) 0xC2 []
      (by decide) (by decide) rfl⟩

/-- C4: when `ns2009_read` yields the 12-bit raw values x for the X command
0xC0 and y for the Y command 0xD0 (and the pressure read is answered),
`ns2009_pos`, computing in 32-bit signed `int`, stores
pos[0] = floor(x*320/4096) and pos[1] = floor(y*480/4096); the products are
not changed by the 32-bit wrap, and the results lie within 0..320 and 0..480. -/
theorem ns2009_pos_scaled (pos : Int × Int) (w : TwoWire) (p x y : Nat)
    (hp : (ns2009_read NS2009_LOW_POWER_READ_Z1 w).map Prod.fst = some p)
    (hx : (ns2009_read NS2009_LOW_POWER_READ_X w).map Prod.fst = some x)
    (hy : (ns2009_read NS2009_LOW_POWER_READ_Y w).map Prod.fst = some y)
    (hx12 : x ≤ 4095) (hy12 : y ≤ 4095) :
    (ns2009_pos pos w).map (fun r => r.2.1) =
      some (((x * 320 / 4096 : Nat) : Int), ((y * 480 / 4096 : Nat) : Int)) ∧
    toInt32 ((x : Int) * SCREEN_X_PIXEL) = (x : Int) * 320 ∧
    toInt32 ((y : Int) * SCREEN_Y_PIXEL) = (y : Int) * 480 ∧
    x * 320 / 4096 ≤ 320 ∧ y * 480 / 4096 ≤ 480 := by
  rw [ns2009_read_map] at hp hx hy
  have m := ns2009_pos_map pos w p x y hp hx hy
  have tx := toInt32_small x (by omega)
  have ty := toInt32_small y (by omega)
  have sx := scale_int x hx12 320 (by omega)
  have sy := scale_int y hy12 480 (by omega)
  have ox : toInt32 ((x : Int) * SCREEN_X_PIXEL) = (x : Int) * 320 := by
    have e : (x : Int) * SCREEN_X_PIXEL = ((x * 320 : Nat) : Int) := by
      unfold SCREEN_X_PIXEL; push_cast; rfl
    rw [e, toInt32_small _ (by omega)]
    push_cast; rfl
  have oy : toInt32 ((y : Int) * SCREEN_Y_PIXEL) = (y : Int) * 480 := by
    have e : (y : Int) * SCREEN_Y_PIXEL = ((y * 480 : Nat) : Int) := by
      unfold SCREEN_Y_PIXEL; push_cast; rfl
    rw [e, toInt32_small _ (by omega)]
    push_cast; rfl
  refine ⟨?_, ox, oy, by omega, by omega⟩
  have c := congrArg (Option.map (fun q : Int × (Int × Int) => q.2)) m
  rw [Option.map_map, Option.map_some', tx, ty] at c
  have sx2 : Int.tdiv (toInt32 ((x : Int) * SCREEN_X_PIXEL)) 4096
      = ((x * 320 / 4096 : Nat) : Int) := sx
  have sy2 : Int.tdiv (toInt32 ((y : Int) * SCREEN_Y_PIXEL)) 4096
      = ((y * 480 / 4096 : Nat) : Int) := sy
  rw [sx2, sy2] at c
  exact c

theorem ns2009_pos_scaled_witness :
    (ns2009_pos (7, 7) (idleWire (ns2009Device [1, 0x23] [0xFF, 0xF0] [0x80, 0]))).map
        (fun r => r.2.1) =
      some (((4095 * 320 / 4096 : Nat) : Int), ((2048 * 480 / 4096 : Nat) : Int)) ∧
    toInt32 (((4095 : Nat) : Int) * SCREEN_X_PIXEL) = ((4095 : Nat) : Int) * 320 ∧
    toInt32 (((2048 : Nat) : Int) * SCREEN_Y_PIXEL) = ((2048 : Nat) : Int) * 480 ∧
    4095 * 320 / 4096 ≤ 320 ∧ 2048 * 480 / 4096 ≤ 480 :=
  ns2009_pos_scaled (7, 7) (idleWire (ns2009Device [1, 0x23] [0xFF, 0xF0] [0x80, 0]))
    18 4095 2048 (by decide) (by decide) (by decide) (by decide) (by decide)

/-- C7: when the bus answers the Z1 command 0xE0 with the bytes b0, b1, and
answers the X and Y commands with any two bytes each, `ns2009_pos` returns the
unscaled 12-bit pressure (b0 << 4) | (b1 >> 4), exactly what
`ns2009_get_press` returns on that bus. -/
theorem ns2009_pos_press (pos : Int × Int) (w : TwoWire) (b0 b1 : Nat) (rest : List Nat)
    (h0 : b0 < 256) (h1 : b1 < 256)
    (hz : w.device 0x48 [0xe0] = b0 :: b1 :: rest)
    (hx : (ns2009_read NS2009_LOW_POWER_READ_X w).isSome)
    (hy : (ns2009_read NS2009_LOW_POWER_READ_Y w).isSome) :
    (ns2009_pos pos w).map (fun r => r.1) = some ((((b0 <<< 4) ||| (b1 >>> 4) : Nat)) : Int) ∧
    (ns2009_get_press w).map Prod.fst = some ((((b0 <<< 4) ||| (b1 >>> 4) : Nat)) : Int) ∧
    (ns2009_pos pos w).map (fun r => r.1) = (ns2009_get_press w).map Prod.fst ∧
    (b0 <<< 4) ||| (b1 >>> 4) ≤ 4095 := by
  have rz := rawRead_of_answer w.device 0xe0 b0 b1 rest hz
  obtain ⟨x, ex⟩ := Option.isSome_iff_exists.mp hx
  obtain ⟨y, ey⟩ := Option.isSome_iff_exists.mp hy
  have rx := ns2009_read_map NS2009_LOW_POWER_READ_X w
  have ry := ns2009_read_map NS2009_LOW_POWER_READ_Y w
  rw [ex, Option.map_some'] at rx
  rw [ey, Option.map_some'] at ry
  have m := ns2009_pos_map pos w _ x.1 y.1 rz rx.symm ry.symm
  have g := ns2009_get_press_map w _ rz
  have r12 := raw12_int b0 b1 h0 h1
  have c := congrArg (Option.map (fun q : Int × (Int × Int) => q.1)) m
  rw [Option.map_map, Option.map_some', r12.1] at c
  rw [r12.1] at g
  exact ⟨c, g, c.trans g.symm, r12.2⟩

theorem ns2009_pos_press_witness :
    (ns2009_pos (7, 7) (idleWire (ns2009Device [1, 0x23] [0xFF, 0xF0] [0x80, 0]))).map
        (fun r => r.1) = some ((((1 <<< 4) ||| (0x23 >>> 4) : Nat)) : Int) ∧
    (ns2009_get_press (idleWire (ns2009Device [1, 0x23] [0xFF, 0xF0] [0x80, 0]))).map Prod.fst
      = some ((((1 <<< 4) ||| (0x23 >>> 4) : Nat)) : Int) ∧
    (ns2009_pos (7, 7) (idleWire (ns2009Device [1, 0x23] [0xFF, 0xF0] [0x80, 0]))).map
        (fun r => r.1) =
      (ns2009_get_press (idleWire (ns2009Device [1, 0x23] [0xFF, 0xF0] [0x80, 0]))).map
        Prod.fst ∧
    (1 <<< 4) ||| (0x23 >>> 4) ≤ 4095 :=
  ns2009_pos_press (7, 7) (idleWire (ns2009Device [1, 0x23] [0xFF, 0xF0] [0x80, 0]))
    1 0x23 [] (by decide) (by decide) rfl (by decide) (by decide)

end TouchDraw
